import Mathlib

/-!
Shallow embedding of the validation and rule-consistency analysis engine of
the data-alchemist repository (`src/components/ValidationTab.tsx`,
`runValidations`, lines 849-1403), together with proofs of the frozen claims.

Modelling conventions, stated once here:

* JavaScript numbers are modelled as `Int`.  Every numeric value the engine
  manipulates (priority levels, durations, loads, phase numbers, slot counts)
  is integral in the data model, and all comparisons the engine performs on
  them are order comparisons, so the model is exact on such inputs.  The one
  floating-point expression, `totalSlots * 0.8` in the saturation check, is
  modelled by the exact rational comparison `5*d > 4*s` (see
  `satFinding`).
* JSON-shaped string fields (`AttributesJSON`, `AvailableSlots`,
  `PreferredPhases`) are modelled by the outcome of `JSON.parse` on the raw
  text rather than by the raw text itself, because the engine only ever
  consumes these fields through `JSON.parse` (and, for `PreferredPhases`,
  through the regex `^(\d+)-(\d+)$` applied when the parse throws).  The
  constructors of `JsonStr` / `PhasesStr` enumerate the mutually exclusive
  outcomes the code distinguishes.
* Values inside a parsed JSON array are modelled by `JAtom`: numbers,
  strings, booleans, null, and an opaque `composite` (a nested array or
  object, tagged with a `Nat` so that distinct objects keep their identity
  as JS `Map` keys).
* JS `Set` and `Map` are modelled by insertion-ordered lists
  (`setAdd`, `mapSet`), matching JS iteration order.
* The recursive DFS of the cycle detector is given explicit fuel; the JS
  recursion expands each node at most once (the `visited` check), so any
  fuel larger than the number of node occurrences is equivalent to the
  unbounded recursion.
* The AI-enhancement block (lines 1355-1399) is outside the specified core:
  it only runs when an external AI service is configured
  (`aiService.isAvailable()`), and the spec excludes AI-model invocation.
  The embedding models the engine with that external service absent.
-/

namespace DataAlchemist

/-- Severity of a finding (`'error' | 'warning'` in the source). -/
inductive Severity where
  | error
  | warning
deriving DecidableEq, Repr

/-- The `ValidationError` record of `ValidationTab.tsx` (lines 12-18). -/
structure ValidationError where
  type : String
  message : String
  entity : String
  field : Option String
  severity : Severity
deriving DecidableEq, Repr

/-- A primitive value inside a parsed JSON array.  Nested arrays/objects are
abstracted as `composite` with an identity tag (JS `Map` keys compare
objects by reference). -/
inductive JAtom where
  | num (n : Int)
  | str (s : String)
  | boolean (b : Bool)
  | null
  | composite (tag : Nat)
deriving DecidableEq, Repr

/-- A parsed top-level JSON value: either an array of atoms or a non-array
value (itself an atom; a top-level object is a `composite` atom). -/
inductive JVal where
  | atom (a : JAtom)
  | arr (elems : List JAtom)
deriving DecidableEq, Repr

/-- Model of a raw JSON-shaped string field through the outcome of
`JSON.parse`.  `empty` is the empty string (JS-falsy, and `JSON.parse`
throws on it); `bad` is nonempty text rejected by `JSON.parse`; `parsed v`
is nonempty text accepted with value `v`. -/
inductive JsonStr where
  | empty
  | bad
  | parsed (v : JVal)
deriving DecidableEq, Repr

/-- Model of the raw `PreferredPhases` string: the `JSON.parse` outcome,
refined on failure by whether the text matches `^(\d+)-(\d+)$` (with the
two captured groups parsed by `parseInt`).  Digits-hyphen-digits text is
never valid JSON, so the constructors are mutually exclusive. -/
inductive PhasesStr where
  | empty
  | bad
  | range (a b : Nat)
  | parsed (v : JVal)
deriving DecidableEq, Repr

/-- The `Client` record (ai-service.ts lines 801-808). -/
structure Client where
  ClientID : String
  ClientName : String
  PriorityLevel : Int
  RequestedTaskIDs : String
  GroupTag : String
  AttributesJSON : JsonStr
deriving DecidableEq, Repr

/-- The `Worker` record (ai-service.ts lines 810-818). -/
structure Worker where
  WorkerID : String
  WorkerName : String
  Skills : String
  AvailableSlots : JsonStr
  MaxLoadPerPhase : Int
  WorkerGroup : String
  QualificationLevel : String
deriving DecidableEq, Repr

/-- The `Task` record (ai-service.ts lines 820-828). -/
structure Task where
  TaskID : String
  TaskName : String
  Category : String
  Duration : Int
  RequiredSkills : String
  PreferredPhases : PhasesStr
  MaxConcurrent : Int
deriving DecidableEq, Repr

/-- The dynamically-typed `config: Record<string, unknown>` of a rule,
restricted to the keys the analysis engine reads.  `none` models an absent
key (JS `undefined`). -/
structure RuleConfig where
  tasks : Option (List String)
  taskId : Option String
  allowedPhases : Option (List Int)
  workerGroup : Option String
  maxSlots : Option Int
deriving DecidableEq, Repr

/-- The `Rule` record (ai-service.ts lines 842-849), restricted to the
fields the engine reads. -/
structure Rule where
  id : String
  type : String
  name : String
  active : Bool
  config : RuleConfig
deriving DecidableEq, Repr

/-- An absent `config` key. -/
def noConfig : RuleConfig := ⟨none, none, none, none, none⟩

/-! ### Shared helpers: JS split/trim, Set, Map -/

/-- Character-level worker for JS `String.prototype.split(',')`: cut the
character list at every comma (a trailing comma yields a trailing empty
piece, and the empty input yields one empty piece, as in JS). -/
def jsSplitCommaAux : List Char → List Char → List (List Char)
  | [], acc => [acc.reverse]
  | c :: rest, acc =>
    if c = ',' then acc.reverse :: jsSplitCommaAux rest []
    else jsSplitCommaAux rest (c :: acc)

/-- JS `s.split(',')`. -/
def jsSplitComma (s : String) : List String :=
  (jsSplitCommaAux s.data []).map String.mk

/-- JS `s.trim()`: strip leading and trailing whitespace. -/
def jsTrim (s : String) : String :=
  String.mk (((s.data.dropWhile Char.isWhitespace).reverse.dropWhile
    Char.isWhitespace).reverse)

/-- JS `s.split(',').map(x => x.trim())`. -/
def splitTrim (s : String) : List String :=
  (jsSplitComma s).map jsTrim

/-- JS `Set.add`: insertion-ordered, deduplicating. -/
def setAdd (s : List String) (x : String) : List String :=
  if x ∈ s then s else s ++ [x]

/-- JS `Map.set`: overwrite in place if the key exists (keeping its
insertion position), else append. -/
def mapSet {β : Type} (m : List (String × β)) (k : String) (v : β) :
    List (String × β) :=
  if (m.map Prod.fst).contains k then
    m.map (fun p => if p.1 = k then (k, v) else p)
  else m ++ [(k, v)]

/-! ### Check 1 (source lines 874-909): missing IDs -/

def missingIdFindings (clients : List Client) (workers : List Worker)
    (tasks : List Task) : List ValidationError :=
  (clients.enum.filterMap fun p =>
    if p.2.ClientID = "" then
      some ⟨"missing_id", "Missing ClientID",
            "Client row " ++ toString (p.1 + 1), some "ClientID", .error⟩
    else none)
  ++ (workers.enum.filterMap fun p =>
    if p.2.WorkerID = "" then
      some ⟨"missing_id", "Missing WorkerID",
            "Worker row " ++ toString (p.1 + 1), some "WorkerID", .error⟩
    else none)
  ++ (tasks.enum.filterMap fun p =>
    if p.2.TaskID = "" then
      some ⟨"missing_id", "Missing TaskID",
            "Task row " ++ toString (p.1 + 1), some "TaskID", .error⟩
    else none)

/-! ### Check 2 (source lines 913-945): duplicate IDs -/

/-- JS `ids.filter((id, index) => ids.indexOf(id) !== index)`: the
occurrences of each value past its first occurrence, in list order. -/
def dupValues (ids : List String) : List String :=
  ((ids.enum).filter (fun p => ids.indexOf p.2 != p.1)).map Prod.snd

def dupClientFinding (id : String) : ValidationError :=
  ⟨"duplicate_id", "Duplicate ClientID: " ++ id, "Clients", none, .error⟩

def dupWorkerFinding (id : String) : ValidationError :=
  ⟨"duplicate_id", "Duplicate WorkerID: " ++ id, "Workers", none, .error⟩

def dupTaskFinding (id : String) : ValidationError :=
  ⟨"duplicate_id", "Duplicate TaskID: " ++ id, "Tasks", none, .error⟩

def duplicateIdFindings (clients : List Client) (workers : List Worker)
    (tasks : List Task) : List ValidationError :=
  (dupValues (clients.map Client.ClientID)).map dupClientFinding
  ++ (dupValues (workers.map Worker.WorkerID)).map dupWorkerFinding
  ++ (dupValues (tasks.map Task.TaskID)).map dupTaskFinding

/-! ### Checks 3, 4, 10, 11 (source lines 949-973, 1109-1133): ranges -/

def invalidRangeFindings (clients : List Client) : List ValidationError :=
  clients.filterMap fun c =>
    if c.PriorityLevel < 1 ∨ c.PriorityLevel > 5 then
      some ⟨"invalid_range",
            "PriorityLevel must be between 1-5, got " ++ toString c.PriorityLevel,
            "Client " ++ c.ClientID, some "PriorityLevel", .error⟩
    else none

def invalidDurationFindings (tasks : List Task) : List ValidationError :=
  tasks.filterMap fun t =>
    if t.Duration < 1 then
      some ⟨"invalid_duration",
            "Duration must be >= 1, got " ++ toString t.Duration,
            "Task " ++ t.TaskID, some "Duration", .error⟩
    else none

def invalidConcurrentFindings (tasks : List Task) : List ValidationError :=
  tasks.filterMap fun t =>
    if t.MaxConcurrent < 1 then
      some ⟨"invalid_concurrent",
            "MaxConcurrent must be >= 1, got " ++ toString t.MaxConcurrent,
            "Task " ++ t.TaskID, some "MaxConcurrent", .error⟩
    else none

def invalidLoadFindings (workers : List Worker) : List ValidationError :=
  workers.filterMap fun w =>
    if w.MaxLoadPerPhase < 1 then
      some ⟨"invalid_load",
            "MaxLoadPerPhase must be >= 1, got " ++ toString w.MaxLoadPerPhase,
            "Worker " ++ w.WorkerID, some "MaxLoadPerPhase", .error⟩
    else none

/-! ### Check 5 (source lines 977-994): unknown references -/

/-- The finding pushed for one unresolved requested-task token. -/
def unknownRefFinding (c : Client) (taskId : String) : ValidationError :=
  ⟨"unknown_reference",
   "Referenced TaskID '" ++ taskId ++ "' does not exist",
   "Client " ++ c.ClientID, some "RequestedTaskIDs", .error⟩

def unknownReferenceFindings (clients : List Client) (tasks : List Task) :
    List ValidationError :=
  clients.flatMap fun c =>
    if c.RequestedTaskIDs = "" then []
    else
      let requestedTasks := splitTrim c.RequestedTaskIDs
      let existingTaskIds := tasks.map Task.TaskID
      requestedTasks.filterMap fun taskId =>
        if taskId ≠ "" ∧ taskId ∉ existingTaskIds then
          some (unknownRefFinding c taskId)
        else none

/-! ### Check 6 (source lines 998-1026): skill coverage -/

def requiredSkillSet (tasks : List Task) : List String :=
  tasks.foldl (fun acc t =>
    if t.RequiredSkills = "" then acc
    else (jsSplitComma t.RequiredSkills).foldl
      (fun a sk => setAdd a (jsTrim sk)) acc) []

def workerSkillSet (workers : List Worker) : List String :=
  workers.foldl (fun acc w =>
    if w.Skills = "" then acc
    else (jsSplitComma w.Skills).foldl
      (fun a sk => setAdd a (jsTrim sk)) acc) []

/-- The finding pushed for one uncovered required skill. -/
def missingSkillFinding (skill : String) : ValidationError :=
  ⟨"missing_skill", "No worker has required skill: " ++ skill,
   "Skills Coverage", none, .warning⟩

def missingSkillFindings (tasks : List Task) (workers : List Worker) :
    List ValidationError :=
  let allWorkerSkills := workerSkillSet workers
  (requiredSkillSet tasks).filterMap fun skill =>
    if skill ∈ allWorkerSkills then none
    else some (missingSkillFinding skill)

/-! ### Check 7 (source lines 1030-1045): broken JSON -/

def invalidJsonFindings (clients : List Client) : List ValidationError :=
  clients.filterMap fun c =>
    match c.AttributesJSON with
    | .bad => some ⟨"invalid_json", "Invalid JSON in AttributesJSON",
                    "Client " ++ c.ClientID, some "AttributesJSON", .error⟩
    | _ => none

/-! ### Check 8 (source lines 1049-1073): AvailableSlots -/

/-- JS `typeof slot === 'number' && slot > 0`. -/
def isPositiveNumber : JAtom → Bool
  | .num n => decide (0 < n)
  | _ => false

/-- JS `Array.isArray(v) && v.every(slot => typeof slot === 'number' && slot > 0)`. -/
def isPosNumArray : JVal → Bool
  | .arr xs => xs.all isPositiveNumber
  | .atom _ => false

def invalidSlotsFindings (workers : List Worker) : List ValidationError :=
  workers.filterMap fun w =>
    match w.AvailableSlots with
    | .empty => none
    | .parsed v =>
      if isPosNumArray v then none
      else some ⟨"invalid_slots", "AvailableSlots must be an array of positive numbers",
                 "Worker " ++ w.WorkerID, some "AvailableSlots", .error⟩
    | .bad => some ⟨"invalid_slots", "AvailableSlots must be valid JSON array",
                    "Worker " ++ w.WorkerID, some "AvailableSlots", .error⟩

/-! ### Check 9 (source lines 1077-1105): PreferredPhases -/

def invalidPhasesFindings (tasks : List Task) : List ValidationError :=
  tasks.filterMap fun t =>
    match t.PreferredPhases with
    | .empty => none
    | .parsed v =>
      if isPosNumArray v then none
      else some ⟨"invalid_phases", "PreferredPhases must be an array of positive numbers",
                 "Task " ++ t.TaskID, some "PreferredPhases", .error⟩
    | .range _ _ => none
    | .bad => some ⟨"invalid_phases",
                    "PreferredPhases must be valid JSON array or range format (e.g., \"1-3\")",
                    "Task " ++ t.TaskID, some "PreferredPhases", .error⟩

/-! ### Check 12 (source lines 1137-1195): circular co-run detection -/

/-- JS `Array.prototype.indexOf`: first index, `-1` when absent. -/
def jsIndexOf (l : List String) (x : String) : Int :=
  if x ∈ l then (l.indexOf x : Int) else -1

/-- JS `Array.prototype.slice(start)` with a possibly negative start:
a negative start counts from the end, clamped at 0. -/
def jsSliceFrom (l : List String) (start : Int) : List String :=
  if start < 0 then l.drop (l.length - (-start).toNat)
  else l.drop start.toNat

/-- One rule's contribution to the `taskGroups` map (source lines
1142-1147): record `rule.id → rule.config.tasks` when the tasks key holds
an array. -/
def groupStep (m : List (String × List String)) (r : Rule) :
    List (String × List String) :=
  match r.config.tasks with
  | some ts => mapSet m r.id ts
  | none => m

/-- The map `rule.id → rule.config.tasks` built from the active `coRun`
rules (source lines 1139-1147). -/
def buildTaskGroups (rules : List Rule) : List (String × List String) :=
  (rules.filter (fun r => r.type == "coRun" && r.active)).foldl groupStep []

/-- The mutable state of the DFS: the shared `visited` set, the
`recursionStack` set and the `errors` accumulated so far. -/
structure CycleState where
  visited : List String
  recStack : List String
  errors : List ValidationError
deriving DecidableEq, Repr

/-- The error pushed when the traversal revisits a node on the recursion
stack (source lines 1154-1163).  The separator reproduces the source's
literal bytes (a mojibake arrow). -/
def cycleError (path : List String) (taskId : String) : ValidationError :=
  let cycleStart := jsIndexOf path taskId
  let cycle := jsSliceFrom path cycleStart ++ [taskId]
  ⟨"circular_corun",
   "Circular co-run dependency detected: " ++ String.intercalate " â†’ " cycle,
   "Co-run Rules", none, .error⟩

/-- The recursive `detectCycle` closure (source lines 1153-1186).  The
inner `for` loops with early `return true` are folds that skip the
remaining iterations once a cycle was found (the skipped iterations have
no effect in the source either, as it returns immediately).  `fuel`
bounds the recursion depth; the JS recursion expands each node at most
once, so any fuel above the number of node occurrences is equivalent. -/
def detectCycle (groups : List (String × List String)) :
    Nat → String → List String → CycleState → Bool × CycleState
  | 0, _, _, st => (false, st)
  | fuel + 1, taskId, path, st =>
    if taskId ∈ st.recStack then
      (true, { st with errors := st.errors ++ [cycleError path taskId] })
    else if taskId ∈ st.visited then (false, st)
    else
      let st1 : CycleState :=
        { st with visited := st.visited ++ [taskId],
                  recStack := st.recStack ++ [taskId] }
      let res := groups.foldl
        (fun (acc : Bool × CycleState) g =>
          if acc.1 then acc
          else if taskId ∈ g.2 then
            g.2.foldl
              (fun (acc2 : Bool × CycleState) t =>
                if acc2.1 then acc2
                else if t ≠ taskId then
                  detectCycle groups fuel t (path ++ [taskId]) acc2.2
                else acc2) acc
          else acc) (false, st1)
      if res.1 then (true, res.2)
      else (false, { res.2 with recStack := res.2.recStack.erase taskId })

/-- Fuel that dominates the recursion depth: one frame per node occurrence
in the groups, plus the root and one slack frame. -/
def cycleFuel (groups : List (String × List String)) : Nat :=
  groups.foldl (fun n g => n + g.2.length) 0 + 2

/-- The driver (source lines 1188-1192): start a traversal at every task
of the tasks collection that is not yet visited. -/
def circularCoRunFindings (tasks : List Task) (rules : List Rule) :
    List ValidationError :=
  let taskGroups := buildTaskGroups rules
  (tasks.foldl
    (fun (st : CycleState) t =>
      if t.TaskID ∈ st.visited then st
      else (detectCycle taskGroups (cycleFuel taskGroups) t.TaskID [] st).2)
    ⟨[], [], []⟩).errors

/-! ### Check 15 (source lines 1199-1261): conflicting rules -/

/-- The `taskPhaseConstraints` map of one co-run rule (source lines
1209-1218): for every active `phaseWindow` rule whose target task belongs
to the co-run set and whose allowed-phases key is present, record
task → allowed phases (a JS `Map`, so a later rule for the same task
overwrites). -/
def corunConstraints (phaseWindowRules : List Rule) (coRunTasks : List String) :
    List (String × List Int) :=
  phaseWindowRules.foldl
    (fun m pr =>
      match pr.config.taskId, pr.config.allowedPhases with
      | some tid, some aps =>
        if tid ∈ coRunTasks then mapSet m tid aps else m
      | _, _ => m) []

/-- JS `reduce((acc, curr) => acc.filter(phase => curr.includes(phase)))`
without a seed (source lines 1222-1225).  The source only evaluates it on
lists of length ≥ 2 (the JS `reduce` would throw on `[]`); the `[]` branch
is unreachable under that guard. -/
def jsIntersection : List (List Int) → List Int
  | [] => []
  | x :: xs =>
    xs.foldl (fun acc curr => acc.filter (fun phase => curr.contains phase)) x

/-- The `conflicting_rules` analysis of one active `coRun` rule against the
active `phaseWindow` rules (source lines 1206-1238). -/
def coRunConflictFindings (phaseWindowRules : List Rule) (coRunRule : Rule) :
    List ValidationError :=
  match coRunRule.config.tasks with
  | none => []
  | some coRunTasks =>
    if (corunConstraints phaseWindowRules coRunTasks).length > 1 then
      if jsIntersection ((corunConstraints phaseWindowRules coRunTasks).map Prod.snd) = [] then
        [⟨"conflicting_rules",
          "Co-run tasks "
            ++ String.intercalate ", "
              ((corunConstraints phaseWindowRules coRunTasks).map Prod.fst)
            ++ " have conflicting phase window constraints - no common phases available",
          "Rule Conflict: " ++ coRunRule.name, none, .error⟩]
      else []
    else []

/-- The `conflicting_rules` analysis of one active `loadLimit` rule against
the group capacity (source lines 1241-1258).  The JS truthiness guard
`if (workerGroup && maxSlots)` requires a nonempty group string and a
nonzero slot count. -/
def loadLimitConflictFindings (workers : List Worker) (loadRule : Rule) :
    List ValidationError :=
  match loadRule.config.workerGroup, loadRule.config.maxSlots with
  | some workerGroup, some maxSlots =>
    if workerGroup ≠ "" ∧ maxSlots ≠ 0 then
      if maxSlots > (workers.filter (fun w => w.WorkerGroup == workerGroup)).foldl
          (fun sum w => sum + w.MaxLoadPerPhase) 0 then
        [⟨"conflicting_rules",
          "Load limit rule sets max " ++ toString maxSlots ++ " slots for group '"
            ++ workerGroup ++ "', but group only has "
            ++ toString ((workers.filter (fun w => w.WorkerGroup == workerGroup)).foldl
              (fun sum w => sum + w.MaxLoadPerPhase) 0)
            ++ " total capacity",
          "Rule Conflict: " ++ loadRule.name, none, .warning⟩]
      else []
    else []
  | _, _ => []

def conflictingRulesFindings (workers : List Worker) (rules : List Rule) :
    List ValidationError :=
  let phaseWindowRules := rules.filter (fun r => r.type == "phaseWindow" && r.active)
  let coRunRules := rules.filter (fun r => r.type == "coRun" && r.active)
  let loadLimitRules := rules.filter (fun r => r.type == "loadLimit" && r.active)
  coRunRules.flatMap (coRunConflictFindings phaseWindowRules)
  ++ loadLimitRules.flatMap (loadLimitConflictFindings workers)

/-! ### Check 13 (source lines 1266-1281): overloaded workers -/

def overloadedWorkerFindings (workers : List Worker) : List ValidationError :=
  workers.filterMap fun w =>
    match w.AvailableSlots with
    | .parsed (.arr xs) =>
      if (xs.length : Int) < w.MaxLoadPerPhase then
        some ⟨"overloaded_worker",
              "Worker has " ++ toString xs.length
                ++ " available slots but MaxLoadPerPhase is " ++ toString w.MaxLoadPerPhase,
              "Worker " ++ w.WorkerID, some "MaxLoadPerPhase", .warning⟩
      else none
    | _ => none

/-! ### Check 14 (source lines 1285-1353): phase-slot saturation -/

/-- One entry of the `phaseAnalysis` map. -/
structure PhaseEntry where
  totalSlots : Int
  totalDuration : Int
deriving DecidableEq, Repr

/-- JS `if (!m.has(p)) m.set(p, {totalSlots: 0, totalDuration: 0})`. -/
def phaseEnsure (m : List (JAtom × PhaseEntry)) (p : JAtom) :
    List (JAtom × PhaseEntry) :=
  if (m.map Prod.fst).contains p then m else m ++ [(p, ⟨0, 0⟩)]

/-- JS `m.get(p)!.totalSlots += amt` after `phaseEnsure`. -/
def phaseAddSlots (m : List (JAtom × PhaseEntry)) (p : JAtom) (amt : Int) :
    List (JAtom × PhaseEntry) :=
  (phaseEnsure m p).map fun q =>
    if q.1 = p then (q.1, { q.2 with totalSlots := q.2.totalSlots + amt }) else q

/-- JS `m.get(p)!.totalDuration += amt` after `phaseEnsure`. -/
def phaseAddDuration (m : List (JAtom × PhaseEntry)) (p : JAtom) (amt : Int) :
    List (JAtom × PhaseEntry) :=
  (phaseEnsure m p).map fun q =>
    if q.1 = p then (q.1, { q.2 with totalDuration := q.2.totalDuration + amt }) else q

/-- One worker's contribution to the supply pass (source lines 1290-1302):
a worker whose `AvailableSlots` parses as a JSON array adds its
`MaxLoadPerPhase` to every listed phase; all other parse outcomes are
skipped by the `catch` or the `Array.isArray` guard. -/
def supplyStep (m : List (JAtom × PhaseEntry)) (w : Worker) :
    List (JAtom × PhaseEntry) :=
  match w.AvailableSlots with
  | .parsed (.arr xs) => xs.foldl (fun m2 ph => phaseAddSlots m2 ph w.MaxLoadPerPhase) m
  | _ => m

/-- The supply pass (source lines 1289-1303). -/
def supplyPass (workers : List Worker) : List (JAtom × PhaseEntry) :=
  workers.foldl supplyStep []

/-- The phase list a task demands (source lines 1306-1330): the parsed
JSON array, or the expansion of the `start-end` range, or nothing.  A
parsed non-array value fails the `Array.isArray` guard, like the empty
list. -/
def taskDemandPhases (t : Task) : List JAtom :=
  match t.PreferredPhases with
  | .parsed (.arr xs) => xs
  | .parsed (.atom _) => []
  | .range a b =>
    -- JS `Array.from({length: end - start + 1}, (_, i) => start + i)`;
    -- a non-positive length yields the empty array.
    let len : Int := (b : Int) - (a : Int) + 1
    if len ≤ 0 then []
    else (List.range len.toNat).map (fun i => JAtom.num ((a : Int) + i))
  | .bad => []
  | .empty => []

/-- The demand pass (source lines 1306-1334). -/
def demandPass (tasks : List Task) (m0 : List (JAtom × PhaseEntry)) :
    List (JAtom × PhaseEntry) :=
  tasks.foldl
    (fun m t => (taskDemandPhases t).foldl (fun m2 ph => phaseAddDuration m2 ph t.Duration) m)
    m0

/-- The full `phaseAnalysis` map: supply pass over the workers, then demand
pass over the tasks, in source order. -/
def phaseAnalysisMap (workers : List Worker) (tasks : List Task) :
    List (JAtom × PhaseEntry) :=
  demandPass tasks (supplyPass workers)

/-- Template-literal rendering of a map key in the saturation messages.
Composite values render opaquely (their JS rendering is not modelled). -/
def renderAtom : JAtom → String
  | .num n => toString n
  | .str s => s
  | .boolean b => if b then "true" else "false"
  | .null => "null"
  | .composite tag => "composite " ++ toString tag

/-- JS `Math.round((d / s) * 100)` for the positive operands of the warning
branch: rounding half up is `⌊(200d + s) / (2s)⌋`. -/
def roundPct (d s : Int) : Int :=
  if s = 0 then 0 else (200 * d + s) / (2 * s)

/-- The per-phase saturation check (source lines 1337-1353).  The float
comparison `totalDuration > totalSlots * 0.8` is modelled by the exact
rational comparison `5 * totalDuration > 4 * totalSlots`. -/
def satFinding (p : JAtom) (e : PhaseEntry) : List ValidationError :=
  if e.totalDuration > e.totalSlots then
    [⟨"phase_saturation",
      "Phase " ++ renderAtom p ++ ": Required duration (" ++ toString e.totalDuration
        ++ ") exceeds available slots (" ++ toString e.totalSlots ++ ")",
      "Phase " ++ renderAtom p, none, .error⟩]
  else if 5 * e.totalDuration > 4 * e.totalSlots then
    [⟨"phase_saturation",
      "Phase " ++ renderAtom p ++ ": High utilization - Required duration ("
        ++ toString e.totalDuration ++ ") is "
        ++ toString (roundPct e.totalDuration e.totalSlots)
        ++ "% of available slots",
      "Phase " ++ renderAtom p, none, .warning⟩]
  else []

def phaseSaturationFindings (workers : List Worker) (tasks : List Task) :
    List ValidationError :=
  (phaseAnalysisMap workers tasks).flatMap fun pe => satFinding pe.1 pe.2

/-! ### The full analysis (source lines 849-1403) -/

/-- `runValidations`: the pure core of the analysis, as the concatenation
of the checks in source order (1, 2, 3, 4, 5, 6, 7, 8, 9, 10, 11, 12, 15,
13, 14 — the numbering follows the source comments, whose blocks appear in
this textual order).  The early return on three empty collections (source
lines 855-864) yields the empty finding list. -/
def runValidations (clients : List Client) (workers : List Worker)
    (tasks : List Task) (rules : List Rule) : List ValidationError :=
  if clients.length = 0 ∧ workers.length = 0 ∧ tasks.length = 0 then []
  else
    missingIdFindings clients workers tasks
    ++ duplicateIdFindings clients workers tasks
    ++ invalidRangeFindings clients
    ++ invalidDurationFindings tasks
    ++ unknownReferenceFindings clients tasks
    ++ missingSkillFindings tasks workers
    ++ invalidJsonFindings clients
    ++ invalidSlotsFindings workers
    ++ invalidPhasesFindings tasks
    ++ invalidConcurrentFindings tasks
    ++ invalidLoadFindings workers
    ++ circularCoRunFindings tasks rules
    ++ conflictingRulesFindings workers rules
    ++ overloadedWorkerFindings workers
    ++ phaseSaturationFindings workers tasks

/-! ### Generic supporting lemmas -/

/-- Left cancellation for string concatenation. -/
theorem string_append_left_cancel {a s t : String} (h : a ++ s = a ++ t) :
    s = t := by
  have hd := congrArg String.data h
  simp [String.data_append] at hd
  exact String.ext hd

/-- The prefixed-message builders used by the findings are injective. -/
theorem string_append_left_cancel_iff (a s t : String) :
    (a ++ s = a ++ t) ↔ s = t :=
  ⟨string_append_left_cancel, fun h => h ▸ rfl⟩

/-- Right cancellation for string concatenation. -/
theorem string_append_right_cancel {s t b : String} (h : s ++ b = t ++ b) :
    s = t := by
  have hd := congrArg String.data h
  simp [String.data_append] at hd
  exact String.ext hd

/-- A string framed by a fixed prefix and a fixed suffix determines the
middle part: the message templates of the findings are injective in the
interpolated token. -/
theorem string_frame_cancel {pre post s t : String}
    (h : pre ++ s ++ post = pre ++ t ++ post) : s = t := by
  have h1 : pre ++ (s ++ post) = pre ++ (t ++ post) := by
    simpa [String.append_assoc] using h
  exact string_append_right_cancel (string_append_left_cancel h1)

/-- Concatenating a fixed prefix preserves and reflects string equality,
also at the `Bool` level used by `countP`. -/
theorem beq_append_left (a s t : String) : (a ++ s == a ++ t) = (s == t) := by
  by_cases h : s = t
  · subst h; simp
  · have hne : ¬(a ++ s = a ++ t) := fun hc => h (string_append_left_cancel hc)
    simp [h, hne]

/-! ### Counting lemmas for the duplicate-ID scan -/

theorem count_dup_eq_countP (l : List String) (v : String) :
    (dupValues l).count v
      = List.countP (fun p => (p.2 == v) && (l.indexOf v != p.1)) l.enum := by
  show List.countP (· == v) _ = _
  rw [dupValues, List.countP_map, List.countP_filter]
  refine List.countP_congr (fun p _ => ?_)
  by_cases hv : p.2 = v
  · simp [Function.comp, hv]
  · simp [Function.comp, hv, bne_iff_ne]

theorem countP_snd_enumFrom (xs : List String) (n : Nat) (v : String) :
    List.countP (fun p => p.2 == v) (xs.enumFrom n) = xs.count v := by
  induction xs generalizing n with
  | nil => rfl
  | cons x xs ih =>
    show List.countP _ ((n, x) :: xs.enumFrom (n+1)) = _
    rw [List.countP_cons, ih, List.count_cons]

theorem countP_shift (xs : List String) (v : String) (j n : Nat) :
    List.countP (fun p => (p.2 == v) && ((j+1 : Nat) != p.1)) (xs.enumFrom (n+1))
      = List.countP (fun p => (p.2 == v) && (j != p.1)) (xs.enumFrom n) := by
  induction xs generalizing n with
  | nil => rfl
  | cons x xs ih =>
    show List.countP _ ((n+1, x) :: xs.enumFrom (n+2))
      = List.countP _ ((n, x) :: xs.enumFrom (n+1))
    rw [List.countP_cons, List.countP_cons, ih]
    have hb : ((j+1 : Nat) != (n+1)) = (j != n) := by
      by_cases h : j = n
      · subst h; simp
      · simp [bne_iff_ne, h]
    rw [hb]

theorem dup_count_cons (x : String) (xs : List String) (v : String) :
    (dupValues (x :: xs)).count v
      = if x = v then xs.count v else (dupValues xs).count v := by
  rw [count_dup_eq_countP]
  show List.countP _ ((0, x) :: xs.enumFrom 1) = _
  rw [List.countP_cons]
  by_cases hv : x = v
  · subst hv
    have hidx : (x :: xs).indexOf x = 0 := List.indexOf_cons_self ..
    have htail : List.countP
        (fun p => (p.2 == x) && ((x :: xs).indexOf x != p.1)) (xs.enumFrom 1)
        = xs.count x := by
      rw [← countP_snd_enumFrom xs 1 x]
      refine List.countP_congr (fun p hp => ?_)
      obtain ⟨i, s⟩ := p
      have h1 : 1 ≤ i := (List.mem_enumFrom hp).1
      have hne : ((x :: xs).indexOf x != i) = true := by
        rw [hidx]; simp [bne_iff_ne]; omega
      show ((s == x) && ((x :: xs).indexOf x != i)) = true ↔ (s == x) = true
      rw [hne, Bool.and_true]
    rw [htail, hidx]
    simp
  · have hidx : (x :: xs).indexOf v = xs.indexOf v + 1 := by
      rw [List.indexOf_cons]
      have hxv : (x == v) = false := by simp [hv]
      rw [hxv]; rfl
    have hx : (x == v) = false := by simp [hv]
    rw [hidx, hx]
    simp only [Bool.false_and, if_false]
    rw [countP_shift xs v (xs.indexOf v) 0]
    rw [count_dup_eq_countP]
    simp [hv]
    rfl

/-- The duplicate scan keeps every occurrence of a value except the first:
a value occurring `N` times yields `N - 1` entries (`0` when absent). -/
theorem count_dupValues (l : List String) (v : String) :
    (dupValues l).count v = l.count v - 1 := by
  induction l with
  | nil => rfl
  | cons x xs ih =>
    rw [dup_count_cons]
    by_cases hv : x = v
    · subst hv
      rw [if_pos rfl, List.count_cons]
      simp
    · rw [if_neg hv, ih, List.count_cons]
      simp [hv, Ne.symm hv]

/-! ### Concrete fixtures shared by the claim theorems.
They instantiate records with the shapes the spec's test bullets use. -/

def plainClient (id req : String) : Client := ⟨id, "N", 3, req, "", .empty⟩

def plainWorker (id skills : String) : Worker := ⟨id, "N", skills, .empty, 1, "", "senior"⟩

def slotWorker (id : String) (slots : JsonStr) (load : Int) : Worker :=
  ⟨id, "N", "", slots, load, "", "senior"⟩

def plainTask (id : String) : Task := ⟨id, "N", "c", 1, "", .empty, 1⟩

def phasedTask (id : String) (dur : Int) (phases : PhasesStr) : Task :=
  ⟨id, "N", "c", dur, "", phases, 1⟩

def skilledTask (id skills : String) : Task := ⟨id, "N", "c", 1, skills, .empty, 1⟩

def coRunRule (rid : String) (ts : List String) : Rule :=
  ⟨rid, "coRun", "CR " ++ rid, true, ⟨some ts, none, none, none, none⟩⟩

def phaseWindowRule (rid tid : String) (aps : List Int) : Rule :=
  ⟨rid, "phaseWindow", "PW " ++ rid, true, ⟨none, some tid, some aps, none, none⟩⟩

def loadLimitRule (rid grp : String) (slots : Int) : Rule :=
  ⟨rid, "loadLimit", "LL " ++ rid, true, ⟨none, none, none, some grp, some slots⟩⟩

def threeTasks : List Task := [plainTask "T1", plainTask "T2", plainTask "T3"]

/-! ### Claim C4: duplicate-identifier detection -/

def dupSampleClients : List Client :=
  [plainClient "C1" "", plainClient "C1" "", plainClient "C2" ""]

/-- C4 counterexample: for clients `[C1, C1, C2]` the value `C1` occurs
`N = 2` times, so the claim predicts 2 `duplicate_id` findings referencing
`C1`; the analysis produces exactly one (the linear scan keeps only the
occurrences whose index differs from the value's first index, which
excludes the first occurrence). -/
theorem duplicate_id_count_counterexample :
    List.countP
        (fun f => f.type == "duplicate_id" && f.message == "Duplicate ClientID: C1")
        (runValidations dupSampleClients [] [] []) = 1
    ∧ ¬ (List.countP
        (fun f => f.type == "duplicate_id" && f.message == "Duplicate ClientID: C1")
        (runValidations dupSampleClients [] [] []) = 2) := by
  constructor
  · decide
  · decide

/-- C4 (amended): for each entity collection and every identifier value
`v`, the number of `duplicate_id` findings whose message references `v`
equals the number of occurrences of `v` minus one (the scan keeps each
occurrence whose index differs from the value's first index, i.e. every
occurrence after the first) — so a value occurring `N > 1` times yields
`N - 1` findings; for clients `[C1, C1, C2]` exactly one `duplicate_id`
finding references `C1` and none references `C2`. -/
theorem duplicate_id_per_value_counts :
    (∀ (clients : List Client) (workers : List Worker) (tasks : List Task)
        (v : String),
      List.countP
          (fun f => f.type == "duplicate_id" && f.entity == "Clients"
            && f.message == ("Duplicate ClientID: " ++ v))
          (duplicateIdFindings clients workers tasks)
        = (clients.map Client.ClientID).count v - 1)
    ∧ List.countP
        (fun f => f.type == "duplicate_id" && f.message == "Duplicate ClientID: C1")
        (runValidations dupSampleClients [] [] []) = 1
    ∧ List.countP
        (fun f => f.type == "duplicate_id" && f.message == "Duplicate ClientID: C2")
        (runValidations dupSampleClients [] [] []) = 0 := by
  refine ⟨fun clients workers tasks v => ?_, by decide, by decide⟩
  rw [duplicateIdFindings, List.countP_append, List.countP_append,
      List.countP_map, List.countP_map, List.countP_map]
  have hA : List.countP
      ((fun f : ValidationError => f.type == "duplicate_id" && f.entity == "Clients"
          && f.message == ("Duplicate ClientID: " ++ v)) ∘ dupClientFinding)
      (dupValues (clients.map Client.ClientID))
      = (dupValues (clients.map Client.ClientID)).count v := by
    refine List.countP_congr (fun id _ => ?_)
    simp [Function.comp, dupClientFinding, beq_append_left]
  have hB : List.countP
      ((fun f : ValidationError => f.type == "duplicate_id" && f.entity == "Clients"
          && f.message == ("Duplicate ClientID: " ++ v)) ∘ dupWorkerFinding)
      (dupValues (workers.map Worker.WorkerID)) = 0 := by
    refine List.countP_eq_zero.2 (fun id _ => ?_)
    simp [Function.comp, dupWorkerFinding]
  have hC : List.countP
      ((fun f : ValidationError => f.type == "duplicate_id" && f.entity == "Clients"
          && f.message == ("Duplicate ClientID: " ++ v)) ∘ dupTaskFinding)
      (dupValues (tasks.map Task.TaskID)) = 0 := by
    refine List.countP_eq_zero.2 (fun id _ => ?_)
    simp [Function.comp, dupTaskFinding]
  rw [hA, hB, hC, count_dupValues]
  omega

/-! ### Claim C5: referential integrity of RequestedTaskIDs -/

/-- C5: for every client, the non-empty comma-split trimmed tokens of its
`RequestedTaskIDs` that are absent from the set of all `TaskID`s each yield
an `unknown_reference` error finding whose message names the token;
no `unknown_reference` message ever names a token that resolves; and on
the spec's concrete example (`RequestedTaskIDs = "T1,T9"` with only task
`T1` present) exactly one `unknown_reference` error is produced and it
mentions `T9`. -/
theorem unknown_reference_per_token (clients : List Client) (tasks : List Task)
    (c : Client) (tid : String)
    (hc : c ∈ clients) (hne : tid ≠ "")
    (hsplit : tid ∈ splitTrim c.RequestedTaskIDs)
    (habs : tid ∉ tasks.map Task.TaskID) :
    unknownRefFinding c tid ∈ unknownReferenceFindings clients tasks
    ∧ (unknownRefFinding c tid).severity = .error
    ∧ (unknownRefFinding c tid).message
        = "Referenced TaskID '" ++ tid ++ "' does not exist"
    ∧ (∀ t, t ∈ tasks.map Task.TaskID →
        ∀ f ∈ unknownReferenceFindings clients tasks,
          f.message ≠ "Referenced TaskID '" ++ t ++ "' does not exist")
    ∧ List.countP (fun f => f.type == "unknown_reference")
        (runValidations [plainClient "C1" "T1,T9"] [] [plainTask "T1"] []) = 1
    ∧ List.countP (fun f => f.message == "Referenced TaskID 'T9' does not exist")
        (runValidations [plainClient "C1" "T1,T9"] [] [plainTask "T1"] []) = 1 := by
  have hreq : c.RequestedTaskIDs ≠ "" := by
    intro h0
    rw [h0] at hsplit
    have : tid = "" := by
      have : splitTrim "" = [""] := rfl
      rw [this] at hsplit
      simpa using hsplit
    exact hne this
  refine ⟨?_, rfl, rfl, ?_, by decide, by decide⟩
  · rw [unknownReferenceFindings]
    refine List.mem_flatMap.2 ⟨c, hc, ?_⟩
    rw [if_neg hreq]
    refine List.mem_filterMap.2 ⟨tid, hsplit, ?_⟩
    rw [if_pos ⟨hne, habs⟩]
  · intro t ht f hf heq
    rw [unknownReferenceFindings] at hf
    obtain ⟨c2, _, hbody⟩ := List.mem_flatMap.1 hf
    by_cases hreq2 : c2.RequestedTaskIDs = ""
    · rw [if_pos hreq2] at hbody
      simp at hbody
    · rw [if_neg hreq2] at hbody
      obtain ⟨tid2, _, hsome⟩ := List.mem_filterMap.1 hbody
      split at hsome
      · rename_i hcond
        obtain rfl := Option.some.inj hsome
        have : tid2 = t := string_frame_cancel heq
        exact hcond.2 (this ▸ ht)
      · exact Option.noConfusion hsome

/-- C5 witness: the theorem applied to the spec's concrete example. -/
theorem unknown_reference_per_token_witness :
    ("T9" ∈ splitTrim (plainClient "C1" "T1,T9").RequestedTaskIDs)
    ∧ unknownRefFinding (plainClient "C1" "T1,T9") "T9"
        ∈ unknownReferenceFindings [plainClient "C1" "T1,T9"] [plainTask "T1"] :=
  ⟨by decide,
   (unknown_reference_per_token [plainClient "C1" "T1,T9"] [plainTask "T1"]
      (plainClient "C1" "T1,T9") "T9" (by decide) (by decide) (by decide)
      (by decide)).1⟩

/-! ### Claim C7: skill coverage -/

theorem nodup_setAdd {s : List String} (x : String) (h : s.Nodup) :
    (setAdd s x).Nodup := by
  rw [setAdd]
  split
  · exact h
  · rename_i hx
    simpa [List.nodup_append, hx] using h

theorem nodup_skillTokenFold (l : List String) (acc : List String)
    (h : acc.Nodup) :
    (l.foldl (fun a sk => setAdd a (jsTrim sk)) acc).Nodup := by
  induction l generalizing acc with
  | nil => exact h
  | cons x xs ih => exact ih _ (nodup_setAdd _ h)

/-- The required-skill set is built through JS `Set.add`, so it has no
duplicates. -/
theorem nodup_requiredSkillSet (tasks : List Task) :
    (requiredSkillSet tasks).Nodup := by
  rw [requiredSkillSet]
  generalize hacc : ([] : List String) = acc
  have h : acc.Nodup := hacc ▸ List.nodup_nil
  clear hacc
  induction tasks generalizing acc with
  | nil => exact h
  | cons t ts ih =>
    show (List.foldl _ (if t.RequiredSkills = "" then acc else _) ts).Nodup
    split
    · exact ih _ h
    · exact ih _ (nodup_skillTokenFold _ _ h)

theorem countP_missing_zero (wset : List String) (l : List String) (sk : String)
    (hmem : sk ∉ l) :
    List.countP (fun f => f.message == ("No worker has required skill: " ++ sk))
      (l.filterMap fun skill =>
        if skill ∈ wset then none else some (missingSkillFinding skill)) = 0 := by
  refine List.countP_eq_zero.2 (fun f hf => ?_)
  obtain ⟨skill, hskill, hsome⟩ := List.mem_filterMap.1 hf
  split at hsome
  · exact Option.noConfusion hsome
  · obtain rfl := Option.some.inj hsome
    show ¬ (("No worker has required skill: " ++ skill
        == "No worker has required skill: " ++ sk) = true)
    rw [beq_append_left]
    simp only [beq_iff_eq]
    rintro rfl
    exact hmem hskill

theorem countP_missing_one (wset : List String) (l : List String) (sk : String)
    (hl : l.Nodup) (hmem : sk ∈ l) (habs : sk ∉ wset) :
    List.countP (fun f => f.message == ("No worker has required skill: " ++ sk))
      (l.filterMap fun skill =>
        if skill ∈ wset then none else some (missingSkillFinding skill)) = 1 := by
  induction l with
  | nil => cases hmem
  | cons x xs ih =>
    rw [List.filterMap_cons]
    rcases List.mem_cons.1 hmem with rfl | hsk
    · rw [if_neg habs, List.countP_cons]
      have hz : List.countP
          (fun f => f.message == ("No worker has required skill: " ++ sk))
          (xs.filterMap fun skill =>
            if skill ∈ wset then none else some (missingSkillFinding skill)) = 0 :=
        countP_missing_zero wset xs sk (List.nodup_cons.1 hl).1
      rw [hz]
      simp [missingSkillFinding]
    · have hxs := ih (List.nodup_cons.1 hl).2 hsk
      have hxne : x ≠ sk := by
        rintro rfl
        exact (List.nodup_cons.1 hl).1 hsk
      by_cases hxw : x ∈ wset
      · rw [if_pos hxw]
        exact hxs
      · rw [if_neg hxw, List.countP_cons, hxs]
        have hb : ((missingSkillFinding x).message
            == ("No worker has required skill: " ++ sk)) = false := by
          show (("No worker has required skill: " ++ x)
            == ("No worker has required skill: " ++ sk)) = false
          rw [beq_append_left]
          simp [hxne]
        rw [hb]
        simp

/-- C7: every skill in the union of the tasks' comma-split trimmed
required skills that no worker possesses yields exactly one
`missing_skill` warning naming the skill; a possessed skill yields none.
On the spec's example, requiring `rust` with no `rust` worker yields
exactly one `missing_skill` warning mentioning `rust`, and adding a
worker with skill `rust` removes it. -/
theorem missing_skill_per_skill (tasks : List Task) (workers : List Worker)
    (sk : String) (hreq : sk ∈ requiredSkillSet tasks) :
    (sk ∉ workerSkillSet workers →
      List.countP (fun f => f.message == ("No worker has required skill: " ++ sk))
        (missingSkillFindings tasks workers) = 1
      ∧ missingSkillFinding sk ∈ missingSkillFindings tasks workers
      ∧ (missingSkillFinding sk).severity = .warning)
    ∧ (sk ∈ workerSkillSet workers →
      ∀ f ∈ missingSkillFindings tasks workers,
        f.message ≠ "No worker has required skill: " ++ sk)
    ∧ List.countP (fun f => f.type == "missing_skill")
        (runValidations [] [plainWorker "W1" "python"] [skilledTask "T1" "rust"] []) = 1
    ∧ List.countP (fun f => f.message == "No worker has required skill: rust")
        (runValidations [] [plainWorker "W1" "python"] [skilledTask "T1" "rust"] []) = 1
    ∧ List.countP (fun f => f.type == "missing_skill")
        (runValidations [] [plainWorker "W1" "python,rust"] [skilledTask "T1" "rust"] []) = 0 := by
  refine ⟨fun habs => ⟨?_, ?_, rfl⟩, fun hpos f hf heq => ?_, by decide, by decide, by decide⟩
  · exact countP_missing_one _ _ _ (nodup_requiredSkillSet tasks) hreq habs
  · exact List.mem_filterMap.2 ⟨sk, hreq, by rw [if_neg habs]⟩
  · rw [missingSkillFindings] at hf
    obtain ⟨skill, hskill, hsome⟩ := List.mem_filterMap.1 hf
    split at hsome
    · exact Option.noConfusion hsome
    · rename_i hskabs
      obtain rfl := Option.some.inj hsome
      have : skill = sk := string_append_left_cancel heq
      exact hskabs (this ▸ hpos)

/-- C7 witness: the theorem applied to the spec's concrete example. -/
theorem missing_skill_per_skill_witness :
    ("rust" ∈ requiredSkillSet [skilledTask "T1" "rust"])
    ∧ ("rust" ∉ workerSkillSet [plainWorker "W1" "python"] →
        List.countP (fun f => f.message == ("No worker has required skill: " ++ "rust"))
          (missingSkillFindings [skilledTask "T1" "rust"] [plainWorker "W1" "python"]) = 1
        ∧ missingSkillFinding "rust"
            ∈ missingSkillFindings [skilledTask "T1" "rust"] [plainWorker "W1" "python"]
        ∧ (missingSkillFinding "rust").severity = .warning) :=
  ⟨by decide,
   (missing_skill_per_skill [skilledTask "T1" "rust"] [plainWorker "W1" "python"]
      "rust" (by decide)).1⟩

/-! ### Claim C3: unresolved rule references -/

def unresolvedGroupWorker : Worker := ⟨"W1", "N", "", .empty, 3, "H", "senior"⟩

/-- C3 counterexample: an active `loadLimit` rule targeting group `G` while
the only worker belongs to group `H` (so the reference resolves to no
worker) still produces a `conflicting_rules` finding: the code treats the
unresolved group as having total capacity 0 and warns that the configured
max of 1 slot exceeds it.  The claim says such a rule contributes no
`conflicting_rules` finding. -/
theorem loadlimit_unresolved_group_counterexample :
    List.countP (fun f => f.type == "conflicting_rules")
        (runValidations [] [unresolvedGroupWorker] [] [loadLimitRule "L1" "G" 1]) = 1
    ∧ (runValidations [] [unresolvedGroupWorker] [] [loadLimitRule "L1" "G" 1]).countP
        (fun f => f.type == "conflicting_rules" && f.severity == Severity.warning) = 1 := by
  constructor
  · decide
  · decide

/-- C3 (amended): a rule's unresolved task references contribute no
findings, but an active `loadLimit` rule whose (truthy) target
`workerGroup` matches no worker is treated as a group of zero total
capacity: with a positive configured `maxSlots` it yields exactly one
`conflicting_rules` finding of severity warning ("group only has 0 total
capacity"); with a negative `maxSlots` it yields none. -/
theorem loadlimit_unresolved_group_zero_capacity (workers : List Worker)
    (r : Rule) (g : String) (m : Int)
    (hw : r.config.workerGroup = some g) (hm : r.config.maxSlots = some m)
    (hg : g ≠ "") (hm0 : m ≠ 0)
    (hnone : ∀ w ∈ workers, w.WorkerGroup ≠ g) :
    (0 < m → loadLimitConflictFindings workers r
        = [⟨"conflicting_rules",
            "Load limit rule sets max " ++ toString m ++ " slots for group '"
              ++ g ++ "', but group only has " ++ toString (0 : Int)
              ++ " total capacity",
            "Rule Conflict: " ++ r.name, none, .warning⟩])
    ∧ (m < 0 → loadLimitConflictFindings workers r = []) := by
  have hfil : workers.filter (fun w => w.WorkerGroup == g) = [] := by
    rw [List.filter_eq_nil_iff]
    intro w hw2
    simp [hnone w hw2]
  constructor
  · intro hpos
    simp only [loadLimitConflictFindings, hw, hm]
    rw [if_pos ⟨hg, hm0⟩, hfil]
    show (if m > (0 : Int) then _ else _) = _
    rw [if_pos (show m > (0 : Int) from hpos)]
    rfl
  · intro hneg
    simp only [loadLimitConflictFindings, hw, hm]
    rw [if_pos ⟨hg, hm0⟩, hfil]
    show (if m > (0 : Int) then _ else _) = _
    rw [if_neg (show ¬ m > (0 : Int) by omega)]

/-- C3 witness: the amended theorem applied to the counterexample's
concrete rule and workers. -/
theorem loadlimit_unresolved_group_zero_capacity_witness :
    (0 : Int) < 1
    ∧ loadLimitConflictFindings [unresolvedGroupWorker] (loadLimitRule "L1" "G" 1)
        = [⟨"conflicting_rules",
            "Load limit rule sets max " ++ toString (1 : Int) ++ " slots for group '"
              ++ "G" ++ "', but group only has " ++ toString (0 : Int)
              ++ " total capacity",
            "Rule Conflict: " ++ (loadLimitRule "L1" "G" 1).name, none, .warning⟩] :=
  ⟨by decide,
   (loadlimit_unresolved_group_zero_capacity [unresolvedGroupWorker]
      (loadLimitRule "L1" "G" 1) "G" 1 rfl rfl (by decide) (by decide)
      (by decide)).1 (by decide)⟩

/-! ### Claim C8: containment of malformed AvailableSlots -/

def badSlotsWorker : Worker := slotWorker "WBAD" .bad 2

/-- C8: a worker whose nonempty `AvailableSlots` does not parse as a JSON
array (the parse throws, or yields a non-array value) produces its own
`invalid_slots` error finding, and contributes nothing to the phase-supply
aggregation (`supplyStep` leaves the phase map unchanged); the analysis is
a total function, so it returns a finding list on every input.  Concretely,
with a malformed-slots worker of `MaxLoadPerPhase` 2 next to a well-formed
worker supplying 1 slot at phase 1 and a task demanding 2 at phase 1, the
analysis reports a `phase_saturation` error for phase 1 — the malformed
worker's 2 slots were not counted. -/
theorem malformed_slots_contained (workers : List Worker) (w : Worker)
    (hw : w ∈ workers)
    (hbad : w.AvailableSlots = .bad ∨ ∃ a, w.AvailableSlots = .parsed (.atom a)) :
    (∃ f ∈ invalidSlotsFindings workers, f.type = "invalid_slots"
      ∧ f.entity = "Worker " ++ w.WorkerID ∧ f.severity = .error)
    ∧ (∀ m, supplyStep m w = m)
    ∧ List.countP (fun f => f.type == "invalid_slots")
        (runValidations [] [badSlotsWorker, slotWorker "W2" (.parsed (.arr [.num 1])) 1]
          [phasedTask "T1" 2 (.parsed (.arr [.num 1]))] []) = 1
    ∧ List.countP
        (fun f => f.type == "phase_saturation" && f.severity == Severity.error)
        (runValidations [] [badSlotsWorker, slotWorker "W2" (.parsed (.arr [.num 1])) 1]
          [phasedTask "T1" 2 (.parsed (.arr [.num 1]))] []) = 1 := by
  refine ⟨?_, ?_, by decide, by decide⟩
  · rcases hbad with hbad | ⟨a, hbad⟩
    · refine ⟨⟨"invalid_slots", "AvailableSlots must be valid JSON array",
        "Worker " ++ w.WorkerID, some "AvailableSlots", .error⟩, ?_, rfl, rfl, rfl⟩
      rw [invalidSlotsFindings]
      refine List.mem_filterMap.2 ⟨w, hw, ?_⟩
      simp only [hbad]
    · refine ⟨⟨"invalid_slots", "AvailableSlots must be an array of positive numbers",
        "Worker " ++ w.WorkerID, some "AvailableSlots", .error⟩, ?_, rfl, rfl, rfl⟩
      rw [invalidSlotsFindings]
      refine List.mem_filterMap.2 ⟨w, hw, ?_⟩
      simp only [hbad, isPosNumArray]
      rfl
  · intro m
    rcases hbad with hbad | ⟨a, hbad⟩ <;> simp [supplyStep, hbad]

/-- C8 witness: the theorem applied to the malformed-slots worker of the
concrete scenario. -/
theorem malformed_slots_contained_witness :
    (badSlotsWorker ∈ [badSlotsWorker, slotWorker "W2" (.parsed (.arr [.num 1])) 1])
    ∧ ∀ m, supplyStep m badSlotsWorker = m :=
  ⟨by decide,
   (malformed_slots_contained
      [badSlotsWorker, slotWorker "W2" (.parsed (.arr [.num 1])) 1]
      badSlotsWorker (by decide) (Or.inl rfl)).2.1⟩

/-! ### Claim C2: phase-saturation bands -/

theorem keys_phaseEnsure_nodup (m : List (JAtom × PhaseEntry)) (p : JAtom)
    (h : (m.map Prod.fst).Nodup) : ((phaseEnsure m p).map Prod.fst).Nodup := by
  rw [phaseEnsure]
  split
  · exact h
  · rename_i hc
    rw [List.map_append]
    have hp : p ∉ m.map Prod.fst := by
      intro hmem
      exact hc (List.elem_eq_true_of_mem hmem)
    simp [List.nodup_append, h, hp]

theorem keys_phaseAddSlots (m : List (JAtom × PhaseEntry)) (p : JAtom) (a : Int) :
    (phaseAddSlots m p a).map Prod.fst = (phaseEnsure m p).map Prod.fst := by
  rw [phaseAddSlots, List.map_map]
  refine List.map_congr_left fun q _ => ?_
  by_cases h : q.1 = p <;> simp [Function.comp, h]

theorem keys_phaseAddDuration (m : List (JAtom × PhaseEntry)) (p : JAtom) (a : Int) :
    (phaseAddDuration m p a).map Prod.fst = (phaseEnsure m p).map Prod.fst := by
  rw [phaseAddDuration, List.map_map]
  refine List.map_congr_left fun q _ => ?_
  by_cases h : q.1 = p <;> simp [Function.comp, h]

theorem keys_slotsFold_nodup (xs : List JAtom) (a : Int)
    (m : List (JAtom × PhaseEntry)) (h : (m.map Prod.fst).Nodup) :
    ((xs.foldl (fun m2 ph => phaseAddSlots m2 ph a) m).map Prod.fst).Nodup := by
  induction xs generalizing m with
  | nil => exact h
  | cons x xs ih =>
    refine ih _ ?_
    rw [keys_phaseAddSlots]
    exact keys_phaseEnsure_nodup _ _ h

theorem keys_durationFold_nodup (xs : List JAtom) (a : Int)
    (m : List (JAtom × PhaseEntry)) (h : (m.map Prod.fst).Nodup) :
    ((xs.foldl (fun m2 ph => phaseAddDuration m2 ph a) m).map Prod.fst).Nodup := by
  induction xs generalizing m with
  | nil => exact h
  | cons x xs ih =>
    refine ih _ ?_
    rw [keys_phaseAddDuration]
    exact keys_phaseEnsure_nodup _ _ h

theorem keys_supplyStep_nodup (m : List (JAtom × PhaseEntry)) (w : Worker)
    (h : (m.map Prod.fst).Nodup) : ((supplyStep m w).map Prod.fst).Nodup := by
  rw [supplyStep]
  split
  · exact keys_slotsFold_nodup _ _ _ h
  · exact h

/-- The `phaseAnalysis` map never holds two entries for the same phase key
(it is a JS `Map`). -/
theorem keys_phaseAnalysisMap_nodup (workers : List Worker) (tasks : List Task) :
    ((phaseAnalysisMap workers tasks).map Prod.fst).Nodup := by
  rw [phaseAnalysisMap, demandPass]
  have hsup : ((supplyPass workers).map Prod.fst).Nodup := by
    rw [supplyPass]
    generalize hacc : ([] : List (JAtom × PhaseEntry)) = acc
    have h : (acc.map Prod.fst).Nodup := by rw [← hacc]; exact List.nodup_nil
    clear hacc
    induction workers generalizing acc with
    | nil => exact h
    | cons w ws ih => exact ih _ (keys_supplyStep_nodup _ _ h)
  generalize hacc : supplyPass workers = acc at hsup
  clear hacc
  induction tasks generalizing acc with
  | nil => exact hsup
  | cons t ts ih => exact ih _ (keys_durationFold_nodup _ _ _ hsup)

def satWorker : Worker := slotWorker "W1" (.parsed (.arr [.num 1])) 2

def satTask (d : Int) : Task := phasedTask "T1" d (.parsed (.arr [.num 1]))

/-- C2: the saturation pass walks the phase map (whose keys are unique)
and contributes, per phase entry, exactly one error finding when demand
strictly exceeds supply, exactly one warning (not an error) at 100%
utilization of a positive supply, and nothing at 50% utilization.  On the
spec's scenario (supply 2 at phase 1): duration 5 yields exactly one
`phase_saturation` error, duration 2 exactly one warning and no error,
duration 1 no `phase_saturation` finding at all. -/
theorem phase_saturation_bands (workers : List Worker) (tasks : List Task)
    (p : JAtom) (e : PhaseEntry)
    (hmem : (p, e) ∈ phaseAnalysisMap workers tasks) :
    phaseSaturationFindings workers tasks
        = (phaseAnalysisMap workers tasks).flatMap (fun q => satFinding q.1 q.2)
    ∧ ((phaseAnalysisMap workers tasks).map Prod.fst).Nodup
    ∧ (e.totalSlots < e.totalDuration →
        ∃ f, satFinding p e = [f] ∧ f.type = "phase_saturation"
          ∧ f.severity = .error ∧ f.entity = "Phase " ++ renderAtom p)
    ∧ (e.totalDuration = e.totalSlots → 0 < e.totalSlots →
        ∃ f, satFinding p e = [f] ∧ f.type = "phase_saturation"
          ∧ f.severity = .warning ∧ f.entity = "Phase " ++ renderAtom p)
    ∧ (2 * e.totalDuration = e.totalSlots → 0 < e.totalSlots →
        satFinding p e = [])
    ∧ List.countP
        (fun f => f.type == "phase_saturation" && f.severity == Severity.error)
        (runValidations [] [satWorker] [satTask 5] []) = 1
    ∧ List.countP
        (fun f => f.type == "phase_saturation" && f.severity == Severity.warning)
        (runValidations [] [satWorker] [satTask 2] []) = 1
    ∧ List.countP
        (fun f => f.type == "phase_saturation" && f.severity == Severity.error)
        (runValidations [] [satWorker] [satTask 2] []) = 0
    ∧ List.countP (fun f => f.type == "phase_saturation")
        (runValidations [] [satWorker] [satTask 1] []) = 0 := by
  refine ⟨rfl, keys_phaseAnalysisMap_nodup workers tasks, ?_, ?_, ?_,
    by decide, by decide, by decide, by decide⟩
  · intro hgt
    refine ⟨⟨"phase_saturation",
      "Phase " ++ renderAtom p ++ ": Required duration (" ++ toString e.totalDuration
        ++ ") exceeds available slots (" ++ toString e.totalSlots ++ ")",
      "Phase " ++ renderAtom p, none, .error⟩, ?_, rfl, rfl, rfl⟩
    rw [satFinding, if_pos (show e.totalDuration > e.totalSlots from hgt)]
  · intro heq hpos
    refine ⟨⟨"phase_saturation",
      "Phase " ++ renderAtom p ++ ": High utilization - Required duration ("
        ++ toString e.totalDuration ++ ") is "
        ++ toString (roundPct e.totalDuration e.totalSlots)
        ++ "% of available slots",
      "Phase " ++ renderAtom p, none, .warning⟩, ?_, rfl, rfl, rfl⟩
    rw [satFinding,
        if_neg (show ¬ e.totalDuration > e.totalSlots by omega),
        if_pos (show 5 * e.totalDuration > 4 * e.totalSlots by omega)]
  · intro hhalf hpos
    rw [satFinding,
        if_neg (show ¬ e.totalDuration > e.totalSlots by omega),
        if_neg (show ¬ 5 * e.totalDuration > 4 * e.totalSlots by omega)]

/-- C2 witness: the theorem applied to the spec's 100%-utilization
scenario (supply 2 and demand 2 at phase 1). -/
theorem phase_saturation_bands_witness :
    ((JAtom.num 1, (⟨2, 2⟩ : PhaseEntry)) ∈ phaseAnalysisMap [satWorker] [satTask 2])
    ∧ ∃ f, satFinding (JAtom.num 1) (⟨2, 2⟩ : PhaseEntry) = [f]
        ∧ f.type = "phase_saturation" ∧ f.severity = .warning
        ∧ f.entity = "Phase " ++ renderAtom (JAtom.num 1) :=
  ⟨by decide,
   (phase_saturation_bands [satWorker] [satTask 2] (JAtom.num 1) ⟨2, 2⟩
      (by decide)).2.2.2.1 rfl (by decide)⟩

/-! ### Claim C6: co-run vs phase-window conflict -/

/-- The seedless JS `reduce`-with-`filter` computes exactly the phases
common to every constraint list. -/
theorem mem_jsIntersection (x : Int) (l : List Int) (ls : List (List Int)) :
    x ∈ jsIntersection (l :: ls) ↔ x ∈ l ∧ ∀ l2 ∈ ls, x ∈ l2 := by
  induction ls generalizing l with
  | nil => simp [jsIntersection]
  | cons c cs ih =>
    have hstep : jsIntersection (l :: c :: cs)
        = jsIntersection ((l.filter (fun phase => c.contains phase)) :: cs) := rfl
    rw [hstep, ih]
    constructor
    · rintro ⟨hf, hall⟩
      obtain ⟨hl, hc⟩ := List.mem_filter.1 hf
      exact ⟨hl, fun l2 hl2 => by
        rcases List.mem_cons.1 hl2 with rfl | hl2
        · exact List.mem_of_elem_eq_true hc
        · exact hall l2 hl2⟩
    · rintro ⟨hl, hall⟩
      refine ⟨List.mem_filter.2 ⟨hl, ?_⟩, fun l2 hl2 => hall l2 (List.mem_cons_of_mem _ hl2)⟩
      exact List.elem_eq_true_of_mem (hall c (List.mem_cons_self ..))

def conflictRules : List Rule :=
  [coRunRule "r1" ["T1", "T2"], phaseWindowRule "p1" "T1" [1],
   phaseWindowRule "p2" "T2" [2]]

def widenedRules : List Rule :=
  [coRunRule "r1" ["T1", "T2"], phaseWindowRule "p1" "T1" [1],
   phaseWindowRule "p2" "T2" [1, 2]]

/-- C6: for an active co-run rule whose task list is present, when at
least two of its tasks carry phase-window constraints, the rule
contributes exactly one `conflicting_rules` error iff no phase is common
to all the constrained tasks' allowed lists, and nothing when some phase
is common to all of them.  On the spec's scenario (`T1 → [1]`, `T2 → [2]`)
the full analysis emits exactly one `conflicting_rules` error, and
widening `T2`'s window to `[1, 2]` removes it. -/
theorem corun_phasewindow_conflict (pw : List Rule) (r : Rule)
    (ts : List String) (hts : r.config.tasks = some ts)
    (hlen : (corunConstraints pw ts).length > 1) :
    ((¬ ∃ ph : Int, ∀ q ∈ corunConstraints pw ts, ph ∈ q.2) →
      ∃ f, coRunConflictFindings pw r = [f] ∧ f.type = "conflicting_rules"
        ∧ f.severity = .error ∧ f.entity = "Rule Conflict: " ++ r.name)
    ∧ ((∃ ph : Int, ∀ q ∈ corunConstraints pw ts, ph ∈ q.2) →
      coRunConflictFindings pw r = [])
    ∧ List.countP (fun f => f.type == "conflicting_rules")
        (runValidations [] [] threeTasks conflictRules) = 1
    ∧ List.countP
        (fun f => f.type == "conflicting_rules" && f.severity == Severity.error)
        (runValidations [] [] threeTasks conflictRules) = 1
    ∧ List.countP (fun f => f.type == "conflicting_rules")
        (runValidations [] [] threeTasks widenedRules) = 0 := by
  obtain ⟨q0, rest, hM⟩ : ∃ q0 rest, corunConstraints pw ts = q0 :: rest := by
    cases hMc : corunConstraints pw ts with
    | nil => rw [hMc] at hlen; simp at hlen
    | cons q0 rest => exact ⟨q0, rest, rfl⟩
  refine ⟨?_, ?_, by decide, by decide, by decide⟩
  · intro hno
    have hempty : jsIntersection ((corunConstraints pw ts).map Prod.snd) = [] := by
      rw [hM, List.map_cons]
      rw [List.eq_nil_iff_forall_not_mem]
      intro x hx
      obtain ⟨hx0, hxall⟩ := (mem_jsIntersection x q0.2 (rest.map Prod.snd)).1 hx
      refine hno ⟨x, fun q hq => ?_⟩
      rw [hM] at hq
      rcases List.mem_cons.1 hq with rfl | hq
      · exact hx0
      · exact hxall q.2 (List.mem_map_of_mem Prod.snd hq)
    refine ⟨⟨"conflicting_rules",
      "Co-run tasks "
        ++ String.intercalate ", " ((corunConstraints pw ts).map Prod.fst)
        ++ " have conflicting phase window constraints - no common phases available",
      "Rule Conflict: " ++ r.name, none, .error⟩, ?_, rfl, rfl, rfl⟩
    simp only [coRunConflictFindings, hts]
    rw [if_pos hlen, if_pos hempty]
  · rintro ⟨ph, hall⟩
    have hne : jsIntersection ((corunConstraints pw ts).map Prod.snd) ≠ [] := by
      rw [hM, List.map_cons]
      intro hnil
      have hmem2 : ph ∈ jsIntersection (q0.2 :: rest.map Prod.snd) := by
        refine (mem_jsIntersection ph q0.2 (rest.map Prod.snd)).2
          ⟨hall q0 (by rw [hM]; exact List.mem_cons_self ..), ?_⟩
        intro l2 hl2
        obtain ⟨q, hq, rfl⟩ := List.mem_map.1 hl2
        exact hall q (by rw [hM]; exact List.mem_cons_of_mem _ hq)
      rw [hnil] at hmem2
      cases hmem2
    simp only [coRunConflictFindings, hts]
    rw [if_pos hlen, if_neg hne]

/-- C6 witness: the theorem applied to the spec's concrete
phase-window-conflict scenario. -/
theorem corun_phasewindow_conflict_witness :
    ((corunConstraints [phaseWindowRule "p1" "T1" [1], phaseWindowRule "p2" "T2" [2]]
        ["T1", "T2"]).length > 1)
    ∧ ∃ f, coRunConflictFindings
        [phaseWindowRule "p1" "T1" [1], phaseWindowRule "p2" "T2" [2]]
        (coRunRule "r1" ["T1", "T2"]) = [f]
        ∧ f.type = "conflicting_rules" ∧ f.severity = .error
        ∧ f.entity = "Rule Conflict: " ++ (coRunRule "r1" ["T1", "T2"]).name := by
  have hM : corunConstraints
      [phaseWindowRule "p1" "T1" [1], phaseWindowRule "p2" "T2" [2]]
      ["T1", "T2"] = [("T1", [1]), ("T2", [2])] := by decide
  refine ⟨by decide, ?_⟩
  refine (corun_phasewindow_conflict
    [phaseWindowRule "p1" "T1" [1], phaseWindowRule "p2" "T2" [2]]
    (coRunRule "r1" ["T1", "T2"]) ["T1", "T2"] rfl (by decide)).1 ?_
  rintro ⟨ph, hall⟩
  rw [hM] at hall
  have h1 := hall ("T1", [1]) (by decide)
  have h2 := hall ("T2", [2]) (by decide)
  simp at h1 h2
  omega

/-! ### Claim C10: cycle traversals are rooted at existing tasks only -/

theorem mem_mapSet {β : Type} {m : List (String × β)} {k : String} {v : β}
    {g : String × β} (hg : g ∈ mapSet m k v) : g = (k, v) ∨ g ∈ m := by
  rw [mapSet] at hg
  split at hg
  · obtain ⟨p, hp, he⟩ := List.mem_map.1 hg
    by_cases hpk : p.1 = k
    · left; rw [← he, if_pos hpk]
    · right; rw [← he, if_neg hpk]; exact hp
  · rcases List.mem_append.1 hg with h | h
    · right; exact h
    · left; simpa using h

theorem groups_foldl_spec (l : List Rule) (m0 : List (String × List String))
    (g : String × List String) (hg : g ∈ l.foldl groupStep m0) :
    g ∈ m0 ∨ ∃ r ∈ l, r.config.tasks = some g.2 := by
  induction l generalizing m0 with
  | nil => exact Or.inl hg
  | cons r rs ih =>
    rcases ih (groupStep m0 r) hg with h | ⟨r2, hr2, hts⟩
    · rw [groupStep] at h
      split at h
      · rename_i ts hts
        rcases mem_mapSet h with rfl | h
        · exact Or.inr ⟨r, List.mem_cons_self .., hts⟩
        · exact Or.inl h
      · exact Or.inl h
    · exact Or.inr ⟨r2, List.mem_cons_of_mem _ hr2, hts⟩

/-- Every task list in the groups map comes from an active `coRun` rule. -/
theorem buildTaskGroups_spec (rules : List Rule) (g : String × List String)
    (hg : g ∈ buildTaskGroups rules) :
    ∃ r ∈ rules, r.type = "coRun" ∧ r.active = true
      ∧ r.config.tasks = some g.2 := by
  rcases groups_foldl_spec _ _ _ hg with h | ⟨r, hr, hts⟩
  · cases h
  · obtain ⟨hr1, hr2⟩ := List.mem_filter.1 hr
    rw [Bool.and_eq_true] at hr2
    exact ⟨r, hr1, by simpa using hr2.1, by simpa using hr2.2, hts⟩

/-- A root that belongs to no co-run group is visited and popped without
recursing, producing no error and leaving the recursion stack as it was. -/
theorem detectCycle_isolated (groups : List (String × List String))
    (fuel : Nat) (root : String) (path : List String) (st : CycleState)
    (hroot : ∀ g ∈ groups, root ∉ g.2)
    (hrs : root ∉ st.recStack) (hv : root ∉ st.visited) :
    detectCycle groups (fuel + 1) root path st
      = (false, ⟨st.visited ++ [root], st.recStack, st.errors⟩) := by
  have hfold : ∀ (gs : List (String × List String)) (acc : Bool × CycleState),
      (∀ g ∈ gs, root ∉ g.2) →
      gs.foldl
        (fun (acc : Bool × CycleState) g =>
          if acc.1 then acc
          else if root ∈ g.2 then
            g.2.foldl
              (fun (acc2 : Bool × CycleState) t =>
                if acc2.1 then acc2
                else if t ≠ root then
                  detectCycle groups fuel t (path ++ [root]) acc2.2
                else acc2) acc
          else acc) acc = acc := by
    intro gs
    induction gs with
    | nil => intro acc _; rfl
    | cons g gs ih =>
      intro acc hg
      have hng : root ∉ g.2 := hg g (List.mem_cons_self ..)
      have hstep : (if acc.1 then acc
          else if root ∈ g.2 then
            g.2.foldl
              (fun (acc2 : Bool × CycleState) t =>
                if acc2.1 then acc2
                else if t ≠ root then
                  detectCycle groups fuel t (path ++ [root]) acc2.2
                else acc2) acc
          else acc) = acc := by
        by_cases h1 : acc.1
        · rw [if_pos h1]
        · rw [if_neg h1, if_neg hng]
      show List.foldl _ (if acc.1 then acc else _) gs = acc
      rw [hstep]
      exact ih acc (fun g2 hg2 => hg g2 (List.mem_cons_of_mem _ hg2))
  show (if root ∈ st.recStack then _
      else if root ∈ st.visited then _ else _) = _
  rw [if_neg hrs, if_neg hv]
  simp only
  rw [hfold groups (false, ⟨st.visited ++ [root], st.recStack ++ [root], st.errors⟩) hroot]
  simp only
  rw [List.erase_append_right _ hrs, List.erase_cons_head, List.append_nil]
  rfl

/-- Driving the traversal from roots that belong to no group accumulates
no errors and keeps the recursion stack empty. -/
theorem cycleDriver_no_errors (groups : List (String × List String))
    (ts : List Task) (st : CycleState)
    (hroot : ∀ t ∈ ts, ∀ g ∈ groups, t.TaskID ∉ g.2)
    (hrs : st.recStack = []) :
    (ts.foldl
      (fun (st : CycleState) t =>
        if t.TaskID ∈ st.visited then st
        else (detectCycle groups (cycleFuel groups) t.TaskID [] st).2) st).errors
        = st.errors
    ∧ (ts.foldl
      (fun (st : CycleState) t =>
        if t.TaskID ∈ st.visited then st
        else (detectCycle groups (cycleFuel groups) t.TaskID [] st).2) st).recStack
        = [] := by
  induction ts generalizing st with
  | nil => exact ⟨rfl, hrs⟩
  | cons t ts ih =>
    have hstep : ∀ st2 : CycleState, st2.recStack = [] →
        ((if t.TaskID ∈ st2.visited then st2
          else (detectCycle groups (cycleFuel groups) t.TaskID [] st2).2).errors
            = st2.errors
        ∧ (if t.TaskID ∈ st2.visited then st2
          else (detectCycle groups (cycleFuel groups) t.TaskID [] st2).2).recStack
            = []) := by
      intro st2 hrs2
      by_cases hv : t.TaskID ∈ st2.visited
      · rw [if_pos hv]
        exact ⟨rfl, hrs2⟩
      · rw [if_neg hv]
        have hfuel : cycleFuel groups
            = (groups.foldl (fun n g => n + g.2.length) 0 + 1) + 1 := rfl
        have hiso := detectCycle_isolated groups
          (groups.foldl (fun n g => n + g.2.length) 0 + 1) t.TaskID [] st2
          (fun g hg => hroot t (List.mem_cons_self ..) g hg)
          (by rw [hrs2]; exact List.not_mem_nil _) hv
        rw [hfuel, hiso]
        exact ⟨rfl, hrs2⟩
    have ihall : ∀ t2 ∈ ts, ∀ g ∈ groups, t2.TaskID ∉ g.2 :=
      fun t2 ht2 g hg => hroot t2 (List.mem_cons_of_mem _ ht2) g hg
    obtain ⟨he, hr⟩ := hstep st hrs
    obtain ⟨ihe, ihr⟩ := ih _ ihall hr
    rw [List.foldl_cons]
    exact ⟨by rw [ihe, he], ihr⟩

/-- The cycle-detection section produces nothing when no task id of any
active co-run rule exists in the tasks collection: every traversal root is
a `TaskID`, hence belongs to no group. -/
theorem circular_section_empty (tasks : List Task) (rules : List Rule)
    (h : ∀ r ∈ rules, r.type = "coRun" → r.active = true →
      ∀ ts, r.config.tasks = some ts → ∀ x ∈ ts, x ∉ tasks.map Task.TaskID) :
    circularCoRunFindings tasks rules = [] := by
  have hroot : ∀ t ∈ tasks, ∀ g ∈ buildTaskGroups rules, t.TaskID ∉ g.2 := by
    intro t ht g hg hmem
    obtain ⟨r, hr, htype, hact, hts⟩ := buildTaskGroups_spec rules g hg
    exact h r hr htype hact g.2 hts t.TaskID hmem (List.mem_map_of_mem _ ht)
  simp only [circularCoRunFindings]
  exact (cycleDriver_no_errors (buildTaskGroups rules) tasks ⟨[], [], []⟩ hroot rfl).1

/-! #### The `type` tag of each section's findings -/

theorem mem_ite_some_filterMap {α : Type} {l : List α} {c : α → Prop}
    [DecidablePred c] {mk : α → ValidationError} {f : ValidationError}
    (h : f ∈ l.filterMap fun a => if c a then some (mk a) else none) :
    ∃ a ∈ l, f = mk a := by
  obtain ⟨a, ha, hsome⟩ := List.mem_filterMap.1 h
  split at hsome
  · exact ⟨a, ha, (Option.some.inj hsome).symm⟩
  · exact Option.noConfusion hsome

theorem mem_ite_none_filterMap {α : Type} {l : List α} {c : α → Prop}
    [DecidablePred c] {mk : α → ValidationError} {f : ValidationError}
    (h : f ∈ l.filterMap fun a => if c a then none else some (mk a)) :
    ∃ a ∈ l, f = mk a := by
  obtain ⟨a, ha, hsome⟩ := List.mem_filterMap.1 h
  split at hsome
  · exact Option.noConfusion hsome
  · exact ⟨a, ha, (Option.some.inj hsome).symm⟩

theorem type_missingId {c w t f} (h : f ∈ missingIdFindings c w t) :
    f.type = "missing_id" := by
  rw [missingIdFindings] at h
  rcases List.mem_append.1 h with h | h
  · rcases List.mem_append.1 h with h | h
    · obtain ⟨a, -, rfl⟩ := mem_ite_some_filterMap h; rfl
    · obtain ⟨a, -, rfl⟩ := mem_ite_some_filterMap h; rfl
  · obtain ⟨a, -, rfl⟩ := mem_ite_some_filterMap h; rfl

theorem type_duplicateId {c w t f} (h : f ∈ duplicateIdFindings c w t) :
    f.type = "duplicate_id" := by
  rw [duplicateIdFindings] at h
  rcases List.mem_append.1 h with h | h
  · rcases List.mem_append.1 h with h | h
    · obtain ⟨a, -, hfe⟩ := List.mem_map.1 h; rw [← hfe]; rfl
    · obtain ⟨a, -, hfe⟩ := List.mem_map.1 h; rw [← hfe]; rfl
  · obtain ⟨a, -, hfe⟩ := List.mem_map.1 h; rw [← hfe]; rfl

theorem type_invalidRange {c f} (h : f ∈ invalidRangeFindings c) :
    f.type = "invalid_range" := by
  rw [invalidRangeFindings] at h
  obtain ⟨a, -, rfl⟩ := mem_ite_some_filterMap h; rfl

theorem type_invalidDuration {t f} (h : f ∈ invalidDurationFindings t) :
    f.type = "invalid_duration" := by
  rw [invalidDurationFindings] at h
  obtain ⟨a, -, rfl⟩ := mem_ite_some_filterMap h; rfl

theorem type_invalidConcurrent {t f} (h : f ∈ invalidConcurrentFindings t) :
    f.type = "invalid_concurrent" := by
  rw [invalidConcurrentFindings] at h
  obtain ⟨a, -, rfl⟩ := mem_ite_some_filterMap h; rfl

theorem type_invalidLoad {w f} (h : f ∈ invalidLoadFindings w) :
    f.type = "invalid_load" := by
  rw [invalidLoadFindings] at h
  obtain ⟨a, -, rfl⟩ := mem_ite_some_filterMap h; rfl

theorem type_unknownReference {c t f} (h : f ∈ unknownReferenceFindings c t) :
    f.type = "unknown_reference" := by
  rw [unknownReferenceFindings] at h
  obtain ⟨cl, -, hbody⟩ := List.mem_flatMap.1 h
  split at hbody
  · cases hbody
  · obtain ⟨tid, -, rfl⟩ := mem_ite_some_filterMap hbody; rfl

theorem type_missingSkill {t w f} (h : f ∈ missingSkillFindings t w) :
    f.type = "missing_skill" := by
  rw [missingSkillFindings] at h
  obtain ⟨sk, -, rfl⟩ := mem_ite_none_filterMap h; rfl

theorem type_invalidJson {c f} (h : f ∈ invalidJsonFindings c) :
    f.type = "invalid_json" := by
  rw [invalidJsonFindings] at h
  obtain ⟨cl, -, hsome⟩ := List.mem_filterMap.1 h
  split at hsome
  · obtain rfl := Option.some.inj hsome; rfl
  · exact Option.noConfusion hsome

theorem type_invalidSlots {w f} (h : f ∈ invalidSlotsFindings w) :
    f.type = "invalid_slots" := by
  rw [invalidSlotsFindings] at h
  obtain ⟨wk, -, hsome⟩ := List.mem_filterMap.1 h
  split at hsome
  · exact Option.noConfusion hsome
  · split at hsome
    · exact Option.noConfusion hsome
    · obtain rfl := Option.some.inj hsome; rfl
  · obtain rfl := Option.some.inj hsome; rfl

theorem type_invalidPhases {t f} (h : f ∈ invalidPhasesFindings t) :
    f.type = "invalid_phases" := by
  rw [invalidPhasesFindings] at h
  obtain ⟨tk, -, hsome⟩ := List.mem_filterMap.1 h
  split at hsome
  · exact Option.noConfusion hsome
  · split at hsome
    · exact Option.noConfusion hsome
    · obtain rfl := Option.some.inj hsome; rfl
  · exact Option.noConfusion hsome
  · obtain rfl := Option.some.inj hsome; rfl

theorem type_coRunConflict {pw r f} (h : f ∈ coRunConflictFindings pw r) :
    f.type = "conflicting_rules" := by
  rw [coRunConflictFindings] at h
  split at h
  · cases h
  · split at h
    · split at h
      · obtain rfl := List.mem_singleton.1 h; rfl
      · cases h
    · cases h

theorem type_loadLimitConflict {w r f} (h : f ∈ loadLimitConflictFindings w r) :
    f.type = "conflicting_rules" := by
  rw [loadLimitConflictFindings] at h
  split at h
  · split at h
    · split at h
      · obtain rfl := List.mem_singleton.1 h; rfl
      · cases h
    · cases h
  · cases h

theorem type_conflictingRules {w r f} (h : f ∈ conflictingRulesFindings w r) :
    f.type = "conflicting_rules" := by
  rw [conflictingRulesFindings] at h
  rcases List.mem_append.1 h with h | h
  · obtain ⟨ru, -, hf⟩ := List.mem_flatMap.1 h
    exact type_coRunConflict hf
  · obtain ⟨ru, -, hf⟩ := List.mem_flatMap.1 h
    exact type_loadLimitConflict hf

theorem type_overloadedWorker {w f} (h : f ∈ overloadedWorkerFindings w) :
    f.type = "overloaded_worker" := by
  rw [overloadedWorkerFindings] at h
  obtain ⟨wk, -, hsome⟩ := List.mem_filterMap.1 h
  split at hsome
  · split at hsome
    · obtain rfl := Option.some.inj hsome; rfl
    · exact Option.noConfusion hsome
  · exact Option.noConfusion hsome

theorem type_satFinding {p e f} (h : f ∈ satFinding p e) :
    f.type = "phase_saturation" := by
  rw [satFinding] at h
  split at h
  · obtain rfl := List.mem_singleton.1 h; rfl
  · split at h
    · obtain rfl := List.mem_singleton.1 h; rfl
    · cases h

theorem type_phaseSaturation {w t f} (h : f ∈ phaseSaturationFindings w t) :
    f.type = "phase_saturation" := by
  rw [phaseSaturationFindings] at h
  obtain ⟨pe, -, hf⟩ := List.mem_flatMap.1 h
  exact type_satFinding hf

/-- A section all of whose findings carry a fixed tag other than
`circular_corun` contributes no `circular_corun` findings. -/
theorem countP_circular_zero (l : List ValidationError) (ty : String)
    (hl : ∀ f ∈ l, f.type = ty) (hne : ty ≠ "circular_corun") :
    l.countP (fun f => f.type == "circular_corun") = 0 := by
  refine List.countP_eq_zero.2 fun f hf => ?_
  rw [hl f hf]
  simp [hne]

/-- C10: if no task identifier of any active `coRun` rule occurs as a
`TaskID` of the tasks collection, the analysis emits zero `circular_corun`
findings — traversals are rooted only at existing `TaskID`s, and such a
root belongs to no co-run group, so the traversal never recurses. -/
theorem circular_corun_needs_existing_tasks (clients : List Client)
    (workers : List Worker) (tasks : List Task) (rules : List Rule)
    (h : ∀ r ∈ rules, r.type = "coRun" → r.active = true →
      ∀ ts, r.config.tasks = some ts → ∀ x ∈ ts, x ∉ tasks.map Task.TaskID) :
    (runValidations clients workers tasks rules).countP
      (fun f => f.type == "circular_corun") = 0 := by
  rw [runValidations]
  split
  · rfl
  · simp only [List.countP_append]
    rw [countP_circular_zero _ _ (fun f hf => type_missingId hf) (by decide),
        countP_circular_zero _ _ (fun f hf => type_duplicateId hf) (by decide),
        countP_circular_zero _ _ (fun f hf => type_invalidRange hf) (by decide),
        countP_circular_zero _ _ (fun f hf => type_invalidDuration hf) (by decide),
        countP_circular_zero _ _ (fun f hf => type_unknownReference hf) (by decide),
        countP_circular_zero _ _ (fun f hf => type_missingSkill hf) (by decide),
        countP_circular_zero _ _ (fun f hf => type_invalidJson hf) (by decide),
        countP_circular_zero _ _ (fun f hf => type_invalidSlots hf) (by decide),
        countP_circular_zero _ _ (fun f hf => type_invalidPhases hf) (by decide),
        countP_circular_zero _ _ (fun f hf => type_invalidConcurrent hf) (by decide),
        countP_circular_zero _ _ (fun f hf => type_invalidLoad hf) (by decide),
        countP_circular_zero _ _ (fun f hf => type_conflictingRules hf) (by decide),
        countP_circular_zero _ _ (fun f hf => type_overloadedWorker hf) (by decide),
        countP_circular_zero _ _ (fun f hf => type_phaseSaturation hf) (by decide),
        circular_section_empty tasks rules h]
    rfl

/-- C10 witness: the theorem applied to a concrete snapshot whose active
co-run rules mention only nonexistent task ids. -/
theorem circular_corun_needs_existing_tasks_witness :
    (∀ r ∈ [coRunRule "r1" ["X1", "X2"], coRunRule "r2" ["X2", "X1"]],
      r.type = "coRun" → r.active = true →
      ∀ ts, r.config.tasks = some ts →
        ∀ x ∈ ts, x ∉ (threeTasks.map Task.TaskID))
    ∧ (runValidations [] [] threeTasks
        [coRunRule "r1" ["X1", "X2"], coRunRule "r2" ["X2", "X1"]]).countP
      (fun f => f.type == "circular_corun") = 0 :=
  ⟨by decide,
   circular_corun_needs_existing_tasks [] [] threeTasks
     [coRunRule "r1" ["X1", "X2"], coRunRule "r2" ["X2", "X1"]] (by decide)⟩

/-! ### Claim C9: determinism -/

/-- C9: the analysis is a pure function of its four inputs — two runs on
identical snapshots produce element-for-element identical finding lists in
the same order.  (The embedded core is the engine without the external
AI-enhancement service, which the spec excludes from the analysis core.) -/
theorem analysis_deterministic
    (c1 c2 : List Client) (w1 w2 : List Worker) (t1 t2 : List Task)
    (r1 r2 : List Rule)
    (hc : c1 = c2) (hw : w1 = w2) (ht : t1 = t2) (hr : r1 = r2) :
    runValidations c1 w1 t1 r1 = runValidations c2 w2 t2 r2 := by
  subst hc; subst hw; subst ht; subst hr; rfl

/-- C9 witness: the determinism theorem applied to a concrete snapshot. -/
theorem analysis_deterministic_witness :
    runValidations [plainClient "C1" "T1"] [plainWorker "W1" "java"]
        [plainTask "T1"] [coRunRule "r1" ["T1", "T2"]]
      = runValidations [plainClient "C1" "T1"] [plainWorker "W1" "java"]
        [plainTask "T1"] [coRunRule "r1" ["T1", "T2"]] :=
  analysis_deterministic _ _ _ _ _ _ _ _ rfl rfl rfl rfl

/-! ### Claim C1: circular co-run detection -/

/-- C1: evaluation of the code at the failing input.  With the full
3-cycle of active co-run rules over the existing tasks T1, T2, T3 the
analysis emits two `circular_corun` errors (at least one, as the claim
demands); but after removing the rule linking T3-T1, the analysis still
emits two `circular_corun` errors instead of the zero the claim demands:
the depth-first traversal follows the undirected co-run edge straight back
to the node it came from (there is no parent exclusion in `detectCycle`),
so any co-run pair of existing tasks is already reported as a cycle. -/
theorem circular_corun_not_eliminated_by_rule_removal :
    ((runValidations [] [] threeTasks
        [coRunRule "rule-1" ["T1", "T2"], coRunRule "rule-2" ["T2", "T3"],
         coRunRule "rule-3" ["T3", "T1"]]).countP
      (fun f => f.type == "circular_corun")) = 2
    ∧ ((runValidations [] [] threeTasks
        [coRunRule "rule-1" ["T1", "T2"], coRunRule "rule-2" ["T2", "T3"]]).countP
      (fun f => f.type == "circular_corun")) = 2 := by
  constructor <;> decide

end DataAlchemist
